import Mathlib

/-!
Verification of the `ramanujan` vector-arithmetic library
(`src/linalg/vectors.rs`) against its specification.

The Rust module defines three generic vector types:

* `Vec2<T>` — fixed 2-component vector with `dot`, `+`, `-`, `* scalar`;
* `Vec3<T>` — fixed 3-component vector with the same operation set;
* `DVec<T>` — dynamic-length vector whose binary operations (`add`, `sub`,
  `dot`) are dimension-checked and return `Result<_, VectorError>`;
* `VectorError` — the single error kind `DimensionMismatch`.

The shallow embedding below mirrors the Rust source:

* Rust's `Vec<T>` backing store becomes `List T`;
* `Result<A, VectorError>` becomes `Except VectorError A`;
* a Rust panic (the `assert!` in `DVec::new`, and the out-of-bounds index
  `self.data[0]` that `dot` would hit on an empty vector) is modelled as
  `Option.none`, so fallible-by-panic entry points return `Option`;
* each operation carries exactly the typeclass operations its Rust `impl`
  block demands (`Add`, `Sub`, `Mul`), nothing stronger; theorems add the
  algebraic hypotheses (commutativity, identities) the claims assume.
-/

namespace Ramanujan

/-- The single error kind of the library (Rust `enum VectorError`). -/
inductive VectorError where
  | DimensionMismatch
  deriving DecidableEq, Repr

deriving instance DecidableEq for Except

-- ---------------------------
-- Fixed-size generic 2D vector
-- ---------------------------

/-- Rust `struct Vec2<T> { x: T, y: T }`. -/
structure Vec2 (T : Type) where
  x : T
  y : T
  deriving DecidableEq, Repr

/-- Rust `Vec2::new(x, y)`. -/
def Vec2.new {T : Type} (x y : T) : Vec2 T := ⟨x, y⟩

/-- Rust `Vec2::dot`: `self.x * other.x + self.y * other.y`. -/
def Vec2.dot {T : Type} [Add T] [Mul T] (a b : Vec2 T) : T :=
  a.x * b.x + a.y * b.y

/-- Rust `impl Add for Vec2<T>`: componentwise sum. -/
def Vec2.add {T : Type} [Add T] (a b : Vec2 T) : Vec2 T :=
  ⟨a.x + b.x, a.y + b.y⟩

/-- Rust `impl Sub for Vec2<T>`: componentwise difference. -/
def Vec2.sub {T : Type} [Sub T] (a b : Vec2 T) : Vec2 T :=
  ⟨a.x - b.x, a.y - b.y⟩

/-- Rust `impl Mul<T> for Vec2<T>`: componentwise scalar product. -/
def Vec2.mul {T : Type} [Mul T] (a : Vec2 T) (scalar : T) : Vec2 T :=
  ⟨a.x * scalar, a.y * scalar⟩

-- ---------------------------
-- Fixed-size generic 3D vector
-- ---------------------------

/-- Rust `struct Vec3<T> { x: T, y: T, z: T }`. -/
structure Vec3 (T : Type) where
  x : T
  y : T
  z : T
  deriving DecidableEq, Repr

/-- Rust `Vec3::new(x, y, z)`. -/
def Vec3.new {T : Type} (x y z : T) : Vec3 T := ⟨x, y, z⟩

/-- Rust `Vec3::dot`: `self.x * other.x + self.y * other.y + self.z * other.z`. -/
def Vec3.dot {T : Type} [Add T] [Mul T] (a b : Vec3 T) : T :=
  a.x * b.x + a.y * b.y + a.z * b.z

/-- Rust `impl Add for Vec3<T>`: componentwise sum. -/
def Vec3.add {T : Type} [Add T] (a b : Vec3 T) : Vec3 T :=
  ⟨a.x + b.x, a.y + b.y, a.z + b.z⟩

/-- Rust `impl Sub for Vec3<T>`: componentwise difference. -/
def Vec3.sub {T : Type} [Sub T] (a b : Vec3 T) : Vec3 T :=
  ⟨a.x - b.x, a.y - b.y, a.z - b.z⟩

/-- Rust `impl Mul<T> for Vec3<T>`: componentwise scalar product. -/
def Vec3.mul {T : Type} [Mul T] (a : Vec3 T) (scalar : T) : Vec3 T :=
  ⟨a.x * scalar, a.y * scalar, a.z * scalar⟩

-- ---------------------------
-- Dynamic-size generic vector
-- ---------------------------

/-- Rust `struct DVec<T> { data: Vec<T> }`. -/
structure DVec (T : Type) where
  data : List T
  deriving DecidableEq, Repr

/-- Rust `DVec::new`: `assert!(!data.is_empty())` then wrap the data.
The assertion failure (a panic) is modelled as `none`. -/
def DVec.new {T : Type} (data : List T) : Option (DVec T) :=
  if data.isEmpty then none else some ⟨data⟩

/-- Rust `DVec::len`: `self.data.len()`. -/
def DVec.len {T : Type} (a : DVec T) : Nat :=
  a.data.length

/-- Rust `DVec::dot`: reject unequal lengths with `DimensionMismatch`,
otherwise fold `acc + val` over the zipped componentwise products starting
from `self.data[0] - self.data[0]`.  The out-of-bounds panic that
`self.data[0]` raises on an empty vector (reachable only when both
operands are empty, since the length check runs first) is modelled as
`none`. -/
def DVec.dot {T : Type} [Add T] [Sub T] [Mul T] (a b : DVec T) :
    Option (Except VectorError T) :=
  if a.len ≠ b.len then some (Except.error VectorError.DimensionMismatch)
  else
    match a.data with
    | [] => none
    | h :: _ =>
        some (Except.ok
          (((a.data.zip b.data).map (fun p => p.1 * p.2)).foldl
            (fun acc val => acc + val) (h - h)))

/-- Rust `impl Add for &DVec<T>`: reject unequal lengths with
`DimensionMismatch`, otherwise collect the zipped componentwise sums. -/
def DVec.add {T : Type} [Add T] (a b : DVec T) :
    Except VectorError (DVec T) :=
  if a.len ≠ b.len then Except.error VectorError.DimensionMismatch
  else Except.ok ⟨(a.data.zip b.data).map (fun p => p.1 + p.2)⟩

/-- Rust `impl Sub for &DVec<T>`: reject unequal lengths with
`DimensionMismatch`, otherwise collect the zipped componentwise
differences. -/
def DVec.sub {T : Type} [Sub T] (a b : DVec T) :
    Except VectorError (DVec T) :=
  if a.len ≠ b.len then Except.error VectorError.DimensionMismatch
  else Except.ok ⟨(a.data.zip b.data).map (fun p => p.1 - p.2)⟩

/-- Rust `impl Mul<T> for DVec<T>`: map `* scalar` over the data; no
length check, no failure path. -/
def DVec.mul {T : Type} [Mul T] (a : DVec T) (scalar : T) : DVec T :=
  ⟨a.data.map (fun x => x * scalar)⟩

-- ---------------------------
-- Helper lemmas
-- ---------------------------

/-- A left fold of `+` over a list equals the initial accumulator plus the
list's sum (associativity is all that is needed). -/
theorem foldl_add_eq_add_sum {T : Type} [AddMonoid T] :
    ∀ (l : List T) (x : T), l.foldl (fun acc val => acc + val) x = x + l.sum
  | [], x => by simp
  | a :: l, x => by
      rw [List.foldl_cons, foldl_add_eq_add_sum l (x + a), List.sum_cons,
        add_assoc]

/-- Unfolding lemma for `DVec.dot` on a non-empty left operand of matching
length: the length check passes and the fold starts at `x - x`, where `x`
is the first element. -/
theorem dvec_dot_cons {T : Type} [Add T] [Sub T] [Mul T] (x : T) (xs : List T)
    (b : DVec T) (hlen : (DVec.mk (x :: xs)).len = b.len) :
    (DVec.mk (x :: xs)).dot b =
      some (Except.ok
        ((((x :: xs).zip b.data).map (fun p => p.1 * p.2)).foldl
          (fun acc val => acc + val) (x - x))) := by
  unfold DVec.dot
  rw [if_neg (by simp [hlen])]

/-- Componentwise sums on zipped lists commute when the underlying binary
operation does. -/
theorem zip_map_comm {T : Type} (f : T → T → T) (hf : ∀ x y, f x y = f y x) :
    ∀ (l m : List T),
      (l.zip m).map (fun p => f p.1 p.2) = (m.zip l).map (fun p => f p.1 p.2)
  | [], m => by simp
  | l, [] => by simp
  | x :: l, y :: m => by
      simp only [List.zip_cons_cons, List.map_cons]
      rw [hf, zip_map_comm f hf l m]

-- ---------------------------
-- Claim theorems
-- ---------------------------

/-- C1: for equal-length `DVec` values with non-empty data, `DVec.dot`
returns `Ok` of the sum of the componentwise products; the fold's starting
accumulator `data[0] - data[0]` equals the additive identity of `T`, so the
result is the plain sum of products. -/
theorem dvec_dot_spec {T : Type} [Ring T] (a b : DVec T)
    (hlen : a.len = b.len) (hne : a.data ≠ []) :
    a.data.head hne - a.data.head hne = (0 : T) ∧
    a.dot b =
      some (Except.ok (((a.data.zip b.data).map (fun p => p.1 * p.2)).sum)) := by
  refine ⟨sub_self _, ?_⟩
  obtain ⟨d⟩ := a
  cases d with
  | nil => exact absurd rfl hne
  | cons x xs =>
      rw [dvec_dot_cons x xs b hlen, foldl_add_eq_add_sum, sub_self, zero_add]

/-- Witness for C1: `DVec::new([1,2,3,4]).dot(&DVec::new([3,4,5,6])) == Ok(50)`. -/
theorem dvec_dot_spec_witness :
    (DVec.mk [1, 2, 3, 4] : DVec ℤ).dot (DVec.mk [3, 4, 5, 6]) =
      some (Except.ok 50) := by
  have h := dvec_dot_spec (DVec.mk [1, 2, 3, 4] : DVec ℤ) (DVec.mk [3, 4, 5, 6])
    rfl (by decide)
  rw [h.2]
  rfl

/-- C2: for equal-length `DVec` values, `add` returns `Ok` of the
componentwise sums and `sub` returns `Ok` of the componentwise differences;
every `Ok` result has the left operand's length and its `i`-th component is
the sum (resp. difference) of the operands' `i`-th components. -/
theorem dvec_add_sub_spec {T : Type} [Add T] [Sub T] (a b : DVec T)
    (hlen : a.len = b.len) :
    (a.add b = Except.ok ⟨(a.data.zip b.data).map (fun p => p.1 + p.2)⟩ ∧
      ∀ r : DVec T, a.add b = Except.ok r → r.len = a.len ∧
        ∀ (i : Nat) (h1 : i < a.data.length) (h2 : i < b.data.length)
          (h3 : i < r.data.length), r.data[i] = a.data[i] + b.data[i]) ∧
    (a.sub b = Except.ok ⟨(a.data.zip b.data).map (fun p => p.1 - p.2)⟩ ∧
      ∀ r : DVec T, a.sub b = Except.ok r → r.len = a.len ∧
        ∀ (i : Nat) (h1 : i < a.data.length) (h2 : i < b.data.length)
          (h3 : i < r.data.length), r.data[i] = a.data[i] - b.data[i]) := by
  have hlen' : a.data.length = b.data.length := hlen
  have hmin : min a.data.length b.data.length = a.data.length := by omega
  constructor
  · have heq : a.add b = Except.ok ⟨(a.data.zip b.data).map (fun p => p.1 + p.2)⟩ := by
      unfold DVec.add
      rw [if_neg (by simp [hlen])]
    refine ⟨heq, fun r hr => ?_⟩
    rw [heq] at hr
    cases hr
    refine ⟨by simp [DVec.len, hmin], fun i h1 h2 h3 => ?_⟩
    simp [List.getElem_zip]
  · have heq : a.sub b = Except.ok ⟨(a.data.zip b.data).map (fun p => p.1 - p.2)⟩ := by
      unfold DVec.sub
      rw [if_neg (by simp [hlen])]
    refine ⟨heq, fun r hr => ?_⟩
    rw [heq] at hr
    cases hr
    refine ⟨by simp [DVec.len, hmin], fun i h1 h2 h3 => ?_⟩
    simp [List.getElem_zip]

/-- Witness for C2: the `Ok` results of `[1,2] + [3,4]` and `[1,2] - [3,4]`
over `ℤ` have the left operand's length. -/
theorem dvec_add_sub_spec_witness :
    (DVec.mk [4, 6] : DVec ℤ).len = (DVec.mk [1, 2] : DVec ℤ).len ∧
    (DVec.mk [-2, -2] : DVec ℤ).len = (DVec.mk [1, 2] : DVec ℤ).len := by
  have h := dvec_add_sub_spec (DVec.mk [1, 2] : DVec ℤ) (DVec.mk [3, 4]) rfl
  exact ⟨(h.1.2 (DVec.mk [4, 6]) (by decide)).1,
    (h.2.2 (DVec.mk [-2, -2]) (by decide)).1⟩

/-- C3: `add`, `sub` and `dot` on `DVec` report `DimensionMismatch` exactly
when the operands' lengths differ (the `Option` layer models the panic that
is never an error value); in particular `DVec([1,2,3]) + DVec([1,2])` over
`ℤ` yields `Err(DimensionMismatch)`. -/
theorem dvec_mismatch_iff {T : Type} [Add T] [Sub T] [Mul T] (a b : DVec T) :
    (a.add b = Except.error VectorError.DimensionMismatch ↔ a.len ≠ b.len) ∧
    (a.sub b = Except.error VectorError.DimensionMismatch ↔ a.len ≠ b.len) ∧
    (a.dot b = some (Except.error VectorError.DimensionMismatch) ↔
      a.len ≠ b.len) ∧
    (DVec.mk [1, 2, 3] : DVec ℤ).add (DVec.mk [1, 2]) =
      Except.error VectorError.DimensionMismatch := by
  refine ⟨?_, ?_, ?_, by decide⟩
  · unfold DVec.add
    by_cases h : a.len = b.len <;> simp [h]
  · unfold DVec.sub
    by_cases h : a.len = b.len <;> simp [h]
  · unfold DVec.dot
    by_cases h : a.len = b.len
    · cases hd : a.data <;> simp [h]
    · simp [h]

/-- C4: `DVec.new` fails fatally (modelled as `none`) exactly on the empty
input, and on every non-empty input it produces the `DVec` holding exactly
that sequence. -/
theorem dvec_new_spec {T : Type} (data : List T) :
    (DVec.new data = none ↔ data = []) ∧
    (data ≠ [] → DVec.new data = some ⟨data⟩) := by
  unfold DVec.new
  constructor
  · by_cases h : data = [] <;> simp [h]
  · intro h
    simp [h]

/-- Witness for C4: `DVec::new([])` over `ℤ` is rejected, while
`DVec::new([1,2,3])` constructs the vector holding `[1,2,3]`. -/
theorem dvec_new_spec_witness :
    DVec.new ([] : List ℤ) = none ∧
    DVec.new ([1, 2, 3] : List ℤ) = some ⟨[1, 2, 3]⟩ :=
  ⟨(dvec_new_spec ([] : List ℤ)).1.mpr rfl,
   (dvec_new_spec ([1, 2, 3] : List ℤ)).2 (by decide)⟩

/-- C5: `Vec2::dot` computes `a*c + b*d` for all scalars; in particular
`Vec2::new(1,2).dot(Vec2::new(3,4)) == 11` over `ℤ`. -/
theorem vec2_dot_spec {T : Type} [Add T] [Mul T] (a b c d : T) :
    (Vec2.new a b).dot (Vec2.new c d) = a * c + b * d ∧
    (Vec2.new (1 : ℤ) 2).dot (Vec2.new 3 4) = 11 :=
  ⟨rfl, by decide⟩

/-- C6: `Vec3` operations are componentwise over `x, y, z`: `add` and `sub`
componentwise, scalar `mul` scales all three components, `dot` sums the
three componentwise products; in particular
`Vec3::new(1,2,3) - Vec3::new(3,4,5) == Vec3::new(-2,-2,-2)` over `ℤ`. -/
theorem vec3_ops_spec {T : Type} [Add T] [Sub T] [Mul T] (a b c d e f s : T) :
    (Vec3.new a b c).add (Vec3.new d e f) = Vec3.new (a + d) (b + e) (c + f) ∧
    (Vec3.new a b c).sub (Vec3.new d e f) = Vec3.new (a - d) (b - e) (c - f) ∧
    (Vec3.new a b c).mul s = Vec3.new (a * s) (b * s) (c * s) ∧
    (Vec3.new a b c).dot (Vec3.new d e f) = a * d + b * e + c * f ∧
    (Vec3.new (1 : ℤ) 2 3).sub (Vec3.new 3 4 5) = Vec3.new (-2) (-2) (-2) :=
  ⟨rfl, rfl, rfl, rfl, by decide⟩

/-- C7: when scalar addition is commutative, `Vec2` and `Vec3` addition is
commutative, and equal-length `DVec` values added in either order give the
same `Ok` result. -/
theorem vec_add_comm_spec {T : Type} [Add T]
    (hcomm : ∀ x y : T, x + y = y + x) :
    (∀ u v : Vec2 T, u.add v = v.add u) ∧
    (∀ u v : Vec3 T, u.add v = v.add u) ∧
    (∀ a b : DVec T, a.len = b.len →
      ∃ r : DVec T, a.add b = Except.ok r ∧ b.add a = Except.ok r) := by
  refine ⟨?_, ?_, ?_⟩
  · intro u v
    unfold Vec2.add
    rw [hcomm u.x v.x, hcomm u.y v.y]
  · intro u v
    unfold Vec3.add
    rw [hcomm u.x v.x, hcomm u.y v.y, hcomm u.z v.z]
  · intro a b hlen
    refine ⟨⟨(a.data.zip b.data).map (fun p => p.1 + p.2)⟩, ?_, ?_⟩
    · unfold DVec.add
      rw [if_neg (by simp [hlen])]
    · unfold DVec.add
      rw [if_neg (by simp [hlen]), zip_map_comm (fun x y => x + y) hcomm]

/-- Witness for C7: commutativity instantiated over `ℤ` at concrete
vectors. -/
theorem vec_add_comm_spec_witness :
    (Vec2.new (1 : ℤ) 2).add (Vec2.new 3 4) =
      (Vec2.new (3 : ℤ) 4).add (Vec2.new 1 2) ∧
    (Vec3.new (1 : ℤ) 2 3).add (Vec3.new 4 5 6) =
      (Vec3.new (4 : ℤ) 5 6).add (Vec3.new 1 2 3) ∧
    ∃ r : DVec ℤ, (DVec.mk [1, 2]).add (DVec.mk [3, 4]) = Except.ok r ∧
      (DVec.mk [3, 4]).add (DVec.mk [1, 2]) = Except.ok r := by
  have h := vec_add_comm_spec (T := ℤ) (fun x y => Int.add_comm x y)
  exact ⟨h.1 _ _, h.2.1 _ _, h.2.2 _ _ rfl⟩

/-- C8: multiplication by a right multiplicative identity is the identity on
`Vec2`, `Vec3` and `DVec`. -/
theorem vec_mul_one_spec {T : Type} [Mul T] (one : T)
    (hone : ∀ x : T, x * one = x) :
    (∀ v : Vec2 T, v.mul one = v) ∧
    (∀ v : Vec3 T, v.mul one = v) ∧
    (∀ v : DVec T, v.mul one = v) := by
  refine ⟨?_, ?_, ?_⟩
  · intro v
    unfold Vec2.mul
    rw [hone, hone]
  · intro v
    unfold Vec3.mul
    rw [hone, hone, hone]
  · intro v
    unfold DVec.mul
    have : v.data.map (fun x => x * one) = v.data := by
      simp only [hone, List.map_id']
    rw [this]

/-- Witness for C8: `v * 1 == v` over `ℤ` for each vector kind. -/
theorem vec_mul_one_spec_witness :
    (Vec2.new (5 : ℤ) 7).mul 1 = Vec2.new 5 7 ∧
    (Vec3.new (5 : ℤ) 7 9).mul 1 = Vec3.new 5 7 9 ∧
    (DVec.mk [1, 2, 3] : DVec ℤ).mul 1 = DVec.mk [1, 2, 3] := by
  have h := vec_mul_one_spec (T := ℤ) 1 (fun x => Int.mul_one x)
  exact ⟨h.1 _, h.2.1 _, h.2.2 _⟩

/-- C9: `DVec` scalar multiplication is total (it returns a `DVec` directly,
with no error layer and no length check): the result has the operand's
length and its `i`-th component is the operand's `i`-th component times the
scalar; in particular `DVec::new([1,2,3,4]) * 2 == DVec::new([2,4,6,8])`
over `ℤ`. -/
theorem dvec_mul_spec {T : Type} [Mul T] (v : DVec T) (s : T) :
    (v.mul s).len = v.len ∧
    (∀ (i : Nat) (h1 : i < v.data.length) (h2 : i < (v.mul s).data.length),
      (v.mul s).data[i] = v.data[i] * s) ∧
    (DVec.mk [1, 2, 3, 4] : DVec ℤ).mul 2 = DVec.mk [2, 4, 6, 8] := by
  refine ⟨?_, ?_, by decide⟩
  · simp [DVec.mul, DVec.len]
  · intro i h1 h2
    simp [DVec.mul]

/-- Witness for C9: length preservation and the 0-th component of
`[1,2,3] * 5` over `ℤ`. -/
theorem dvec_mul_spec_witness :
    ((DVec.mk [1, 2, 3] : DVec ℤ).mul 5).len = (DVec.mk [1, 2, 3] : DVec ℤ).len ∧
    ((DVec.mk [1, 2, 3] : DVec ℤ).mul 5).data.get ⟨0, by decide⟩ = 1 * 5 := by
  have h := dvec_mul_spec (DVec.mk [1, 2, 3] : DVec ℤ) 5
  exact ⟨h.1, h.2.1 0 (by decide) (by decide)⟩

/-- C10: although `add`, `sub` and `mul` build their results directly
without `DVec::new`, every result is non-empty with the left operand's
length: for non-empty equal-length operands the `Ok` results of `add` and
`sub` have the left operand's length and are non-empty, and `mul` preserves
length and non-emptiness for any operand. -/
theorem dvec_closure_spec {T : Type} [Add T] [Sub T] [Mul T] (a b : DVec T)
    (hlen : a.len = b.len) (hne : a.data ≠ []) (s : T) :
    (∀ r : DVec T, a.add b = Except.ok r → r.len = a.len ∧ r.data ≠ []) ∧
    (∀ r : DVec T, a.sub b = Except.ok r → r.len = a.len ∧ r.data ≠ []) ∧
    ((a.mul s).len = a.len ∧ (a.mul s).data ≠ []) := by
  have hlen' : a.data.length = b.data.length := hlen
  have hmin : min a.data.length b.data.length = a.data.length := by omega
  have hpos : 0 < a.data.length := List.length_pos.mpr hne
  refine ⟨?_, ?_, ?_⟩
  · intro r hr
    unfold DVec.add at hr
    rw [if_neg (by simp [hlen])] at hr
    cases hr
    constructor
    · simp [DVec.len, hmin]
    · rw [← List.length_pos]
      simp [hmin, hpos]
  · intro r hr
    unfold DVec.sub at hr
    rw [if_neg (by simp [hlen])] at hr
    cases hr
    constructor
    · simp [DVec.len, hmin]
    · rw [← List.length_pos]
      simp [hmin, hpos]
  · constructor
    · simp [DVec.mul, DVec.len]
    · rw [← List.length_pos]
      simp [DVec.mul, hpos]

/-- Witness for C10: the non-emptiness and length invariants at concrete
`ℤ` vectors. -/
theorem dvec_closure_spec_witness :
    ((DVec.mk [4, 6] : DVec ℤ).len = (DVec.mk [1, 2] : DVec ℤ).len ∧
      (DVec.mk [4, 6] : DVec ℤ).data ≠ []) ∧
    ((DVec.mk [1, 2] : DVec ℤ).mul 3).len = (DVec.mk [1, 2] : DVec ℤ).len ∧
      ((DVec.mk [1, 2] : DVec ℤ).mul 3).data ≠ [] := by
  have h := dvec_closure_spec (DVec.mk [1, 2] : DVec ℤ) (DVec.mk [3, 4]) rfl
    (by decide) 3
  exact ⟨h.1 (DVec.mk [4, 6]) (by decide), h.2.2⟩

end Ramanujan
